import Mathlib

set_option maxHeartbeats 1000000
set_option maxRecDepth 16384
set_option linter.unusedVariables false

/-!
Formal model of the AI-Tutor Streamlit application (src/app.py).

The script is re-executed from the top on every user interaction; only
`st.session_state` survives between runs.  We model one interaction as a
step function on the persistent session state, parametrised by the user's
action and by the text(s) the generation client returns during the
corresponding handler (`ask_openrouter` never raises: it returns either the
completion or an error string, src/app.py:21-36).  Python string primitives
(`str.strip`, `str.splitlines`, `str.lower`, the numbering regex) are
embedded over `List Char`.
-/

/-- Python whitespace (the set accepted by `str.isspace`, which is also what
`str.strip()` removes and what the regex class matched by a backslash-s
contains): ASCII whitespace, the C0 separator block, NEL, NBSP and the
Unicode space characters. -/
def isPySpace (c : Char) : Bool :=
  c = ' ' || c = '\t' || c = '\n' || c = '\r' || c = '\x0b' || c = '\x0c' ||
  c = '\x1c' || c = '\x1d' || c = '\x1e' || c = '\x1f' || c = '\x85' || c = '\xa0' ||
  c = '\u1680' || ('\u2000' ≤ c && c ≤ '\u200a') || c = '\u2028' || c = '\u2029' ||
  c = '\u202f' || c = '\u205f' || c = '\u3000'

/-- The one-character line boundaries recognised by Python `str.splitlines`
(the two-character boundary CRLF is handled separately). -/
def isLineBreak (c : Char) : Bool :=
  c = '\n' || c = '\r' || c = '\x0b' || c = '\x0c' ||
  c = '\x1c' || c = '\x1d' || c = '\x1e' || c = '\x85' || c = '\u2028' || c = '\u2029'

/-- Remove trailing Python whitespace. -/
def dropTrailingWs (cs : List Char) : List Char :=
  (cs.reverse.dropWhile isPySpace).reverse

/-- Python `str.strip()` on a list of characters. -/
def stripL (cs : List Char) : List Char :=
  dropTrailingWs (cs.dropWhile isPySpace)

/-- Python `str.strip()`. -/
def pyStrip (s : String) : String := String.mk (stripL s.toList)

/-- The worker of the splitlines embedding: `acc` holds the reversed
characters of the line being read.  A boundary character ends the line; a
CRLF pair is one boundary; a boundary with nothing after it produces no
further line. -/
def splitlinesGo (acc : List Char) : List Char → List (List Char)
  | [] => [acc.reverse]
  | c :: rest =>
    if isLineBreak c then
      match rest with
      | [] => [acc.reverse]
      | r :: t =>
        if c = '\r' ∧ r = '\n' then
          acc.reverse :: (if t.isEmpty then [] else splitlinesGo [] t)
        else acc.reverse :: splitlinesGo [] (r :: t)
    else splitlinesGo (c :: acc) rest

/-- Python `str.splitlines()` on a list of characters: split at every line
boundary, CRLF counting as one boundary, with no entry for a trailing
boundary (so the empty string yields no lines at all). -/
def splitlinesL (cs : List Char) : List (List Char) :=
  if cs.isEmpty then [] else splitlinesGo [] cs

/-- The lines of what follows the first line boundary: the argument is the
remainder of the input starting at that boundary (used to state the
one-step unfolding of `splitlinesL`). -/
def splitlinesRest : List Char → List (List Char)
  | [] => []
  | c :: t => if c = '\r' ∧ t.head? = some '\n' then splitlinesL t.tail else splitlinesL t

/-- Python `str.splitlines()`. -/
def pySplitlines (s : String) : List String :=
  (splitlinesL s.toList).map String.mk

/-- The separator characters of the numbering regex character class:
a closing parenthesis, a full stop, a colon or a hyphen. -/
def isNumSep (c : Char) : Bool := c = ')' || c = '.' || c = ':' || c = '-'

/-- The regex class matched by a backslash-d in a Python str pattern: any
Unicode decimal digit, i.e. every character of general category Nd
(Unicode 14.0), given by these codepoint ranges. -/
def isPyDigit (c : Char) : Bool :=
  let n := c.toNat
  (0x30 ≤ n && n ≤ 0x39) || (0x660 ≤ n && n ≤ 0x669) || (0x6f0 ≤ n && n ≤ 0x6f9) ||
  (0x7c0 ≤ n && n ≤ 0x7c9) || (0x966 ≤ n && n ≤ 0x96f) || (0x9e6 ≤ n && n ≤ 0x9ef) ||
  (0xa66 ≤ n && n ≤ 0xa6f) || (0xae6 ≤ n && n ≤ 0xaef) || (0xb66 ≤ n && n ≤ 0xb6f) ||
  (0xbe6 ≤ n && n ≤ 0xbef) || (0xc66 ≤ n && n ≤ 0xc6f) || (0xce6 ≤ n && n ≤ 0xcef) ||
  (0xd66 ≤ n && n ≤ 0xd6f) || (0xde6 ≤ n && n ≤ 0xdef) || (0xe50 ≤ n && n ≤ 0xe59) ||
  (0xed0 ≤ n && n ≤ 0xed9) || (0xf20 ≤ n && n ≤ 0xf29) || (0x1040 ≤ n && n ≤ 0x1049) ||
  (0x1090 ≤ n && n ≤ 0x1099) || (0x17e0 ≤ n && n ≤ 0x17e9) || (0x1810 ≤ n && n ≤ 0x1819) ||
  (0x1946 ≤ n && n ≤ 0x194f) || (0x19d0 ≤ n && n ≤ 0x19d9) || (0x1a80 ≤ n && n ≤ 0x1a89) ||
  (0x1a90 ≤ n && n ≤ 0x1a99) || (0x1b50 ≤ n && n ≤ 0x1b59) || (0x1bb0 ≤ n && n ≤ 0x1bb9) ||
  (0x1c40 ≤ n && n ≤ 0x1c49) || (0x1c50 ≤ n && n ≤ 0x1c59) || (0xa620 ≤ n && n ≤ 0xa629) ||
  (0xa8d0 ≤ n && n ≤ 0xa8d9) || (0xa900 ≤ n && n ≤ 0xa909) || (0xa9d0 ≤ n && n ≤ 0xa9d9) ||
  (0xa9f0 ≤ n && n ≤ 0xa9f9) || (0xaa50 ≤ n && n ≤ 0xaa59) || (0xabf0 ≤ n && n ≤ 0xabf9) ||
  (0xff10 ≤ n && n ≤ 0xff19) || (0x104a0 ≤ n && n ≤ 0x104a9) || (0x10d30 ≤ n && n ≤ 0x10d39) ||
  (0x11066 ≤ n && n ≤ 0x1106f) || (0x110f0 ≤ n && n ≤ 0x110f9) || (0x11136 ≤ n && n ≤ 0x1113f) ||
  (0x111d0 ≤ n && n ≤ 0x111d9) || (0x112f0 ≤ n && n ≤ 0x112f9) || (0x11450 ≤ n && n ≤ 0x11459) ||
  (0x114d0 ≤ n && n ≤ 0x114d9) || (0x11650 ≤ n && n ≤ 0x11659) || (0x116c0 ≤ n && n ≤ 0x116c9) ||
  (0x11730 ≤ n && n ≤ 0x11739) || (0x118e0 ≤ n && n ≤ 0x118e9) || (0x11950 ≤ n && n ≤ 0x11959) ||
  (0x11c50 ≤ n && n ≤ 0x11c59) || (0x11d50 ≤ n && n ≤ 0x11d59) || (0x11da0 ≤ n && n ≤ 0x11da9) ||
  (0x16a60 ≤ n && n ≤ 0x16a69) || (0x16ac0 ≤ n && n ≤ 0x16ac9) || (0x16b50 ≤ n && n ≤ 0x16b59) ||
  (0x1d7ce ≤ n && n ≤ 0x1d7ff) || (0x1e140 ≤ n && n ≤ 0x1e149) || (0x1e2f0 ≤ n && n ≤ 0x1e2f9) ||
  (0x1e950 ≤ n && n ≤ 0x1e959) || (0x1fbf0 ≤ n && n ≤ 0x1fbf9)

/-- `strip_numbering` (src/app.py:72-74) on a list of characters: remove a
leading numbering token — optional whitespace, one or more decimal digits,
optional whitespace, at most one separator, optional whitespace — and
`str.strip()` the result.  The regex is anchored at the start and needs at
least one digit (any Unicode decimal digit, `isPyDigit`) after the leading
whitespace; when it does not match, the line is returned merely stripped. -/
def strip_numberingL (cs : List Char) : List Char :=
  match cs.dropWhile isPySpace with
  | [] => stripL cs
  | c :: _ =>
    if isPyDigit c then
      let t2 := (cs.dropWhile isPySpace).dropWhile isPyDigit
      let t3 := t2.dropWhile isPySpace
      let t4 := match t3 with
        | d :: rest => if isNumSep d then rest else t3
        | [] => t3
      stripL t4
    else stripL cs

/-- `strip_numbering` (src/app.py:72-74). -/
def strip_numbering (s : String) : String := String.mk (strip_numberingL s.toList)

/-- One quiz entry: the dict with keys "question" and "answer" built at
src/app.py:206-209. -/
structure QA where
  question : String
  answer : String
deriving DecidableEq, Repr

/-- The non-blank lines of a raw generated block: `[line for line in
text.splitlines() if line.strip()]` (src/app.py:196-197). -/
def nonBlankLines (s : String) : List String :=
  (pySplitlines s).filter (fun l => !(stripL l.toList).isEmpty)

/-- `questions = [strip_numbering(l) for l in q_lines]` (src/app.py:199). -/
def questionsOf (quiz_text : String) : List String :=
  (nonBlankLines quiz_text).map strip_numbering

/-- `answers = [strip_numbering(l) for l in a_lines]` (src/app.py:200). -/
def answersOf (answers_text : String) : List String :=
  (nonBlankLines answers_text).map strip_numbering

/-- The quiz-construction block of the Tutorial page handler
(src/app.py:195-218), as a function of the two generated text blocks.  The
pairing loop keeps `min(len(questions), len(answers))` positional pairs; the
padding loop at lines 211-216 evaluates an f-string naming `concept`, which
is never bound when the script runs with `page == "tutorial"` (it is
assigned only inside the home-page branch of the top-level `if`), so any run
entering the padding loop raises NameError before the quiz is stored;
otherwise the first ten pairs are stored (`quiz_data[:10]`, line 218). -/
def parse_quiz (quiz_text answers_text : String) : Except String (List QA) :=
  let questions := questionsOf quiz_text
  let answers := answersOf answers_text
  let quiz_data := (questions.zip answers).map (fun p => { question := p.1, answer := p.2 : QA })
  if quiz_data.length < 10 then
    Except.error "NameError: name 'concept' is not defined"
  else
    Except.ok (quiz_data.take 10)

/-- The grading prompt of `check_answer_with_llm` (src/app.py:45-52). -/
def check_prompt (question student_answer : String) : String :=
  "Question: " ++ question ++ "\n" ++
  "Student Answer: " ++ student_answer ++ "\n\n" ++
  "Evaluate whether the student's answer is correct. " ++
  "Reply starting with a single word 'CORRECT' or 'INCORRECT' (caps or any case ok). " ++
  "Optionally add one short sentence of feedback after that word. " ++
  "Do NOT reveal the correct answer if the student's answer is incorrect."

/-- `check_answer_with_llm` (src/app.py:39-60), as a function of the reply
`resp` of the generation client.  `resp.strip().splitlines()[0]` raises
IndexError when the stripped reply is empty (an empty string has no lines);
otherwise the first line of the stripped reply is stripped, lower-cased and
tested with `startswith("correct")`, and the untouched reply is returned as
the second component. -/
def check_answer_with_llm (question student_answer resp : String) :
    Except String (Bool × String) :=
  match splitlinesL (stripL resp.toList) with
  | [] => Except.error "IndexError: list index out of range"
  | first :: _ =>
    let first_line := (stripL first).map Char.toLower
    if "correct".toList.isPrefixOf first_line then Except.ok (true, resp)
    else Except.ok (false, resp)

/-- The persistent session state: the `st.session_state` keys initialised at
src/app.py:79-94.  `hints_used` maps a question index to its hint count; the
Python dict keyed by `str(q_index)` is modelled as an association list over
the index itself, read through `List.lookup` (most recent binding first). -/
structure Session where
  page : String
  lesson : String
  quiz : List QA
  current_q : Nat
  score : Nat
  hints_used : List (Nat × Nat)
  difficulty_grade : Nat
deriving DecidableEq, Repr

/-- The state after `STATE INIT` on the very first run (src/app.py:79-94). -/
def initSession : Session :=
  { page := "home", lesson := "", quiz := [], current_q := 0, score := 0,
    hints_used := [], difficulty_grade := 6 }

/-- `st.session_state.hints_used.get(str(q_index), 0)` (src/app.py:262). -/
def hintsGet (d : List (Nat × Nat)) (i : Nat) : Nat := (d.lookup i).getD 0

/-- `st.session_state.hints_used[str(q_index)] = v` (src/app.py:302): the
dict write is modelled by prepending the binding, `List.lookup` returning
the most recent one. -/
def hintsSet (d : List (Nat × Nat)) (i v : Nat) : List (Nat × Nat) := (i, v) :: d

/-- One user action, each constructor carrying the reply text(s) the
generation client produces while the corresponding handler runs (the
handlers are the `st.button` bodies of src/app.py; `ask_openrouter` never
raises, so a reply is an arbitrary string). -/
inductive Event where
  | generateTutorial (grade : Nat) (concept : String) (resp : String)
  | easier (resp : String)
  | harder (resp : String)
  | moveToQuiz (quizResp answersResp : String)
  | betterTutorial (resp : String)
  | submit (answer : String) (evalResp : String)
  | hint (resp : String)
  | restart
deriving DecidableEq, Repr

/-- The Hint handler of the Quiz page (src/app.py:292-303).  The second
component counts the generation calls made during the handler: with three
hints already used the handler only shows a warning — no call, no state
write; otherwise one hint is generated and the counter is incremented.  The
guard reflects that the button exists only on the quiz page while a current
question is displayed (src/app.py:243-254). -/
def hintStep (s : Session) : Session × Nat :=
  if s.page = "quiz" ∧ s.quiz ≠ [] ∧ s.current_q < s.quiz.length then
    let hints_for_q := hintsGet s.hints_used s.current_q
    if hints_for_q ≥ 3 then (s, 0)
    else ({ s with hints_used := hintsSet s.hints_used s.current_q (hints_for_q + 1) }, 1)
  else (s, 0)

/-- One user-triggered event processed by a full run of the script
(src/app.py:99-307).  A button absent from the current page leaves the state
unchanged; a handler that raises (NameError in the quiz padding loop,
IndexError in `check_answer_with_llm`) yields `Except.error`, and no state
written before the raise differs from the previous state in either case.
The home-page grade selector offers exactly "Grade 1" … "Grade 12", parsed
at src/app.py:108-111 with fallback 6 on any parse failure — modelled by
clamping the event's grade to that range with the same fallback. -/
def step (s : Session) (e : Event) : Except String Session :=
  match e with
  | .generateTutorial grade concept resp =>
    if s.page = "home" then
      let s1 := { s with difficulty_grade := if 1 ≤ grade ∧ grade ≤ 12 then grade else 6 }
      if (stripL concept.toList).isEmpty then Except.ok s1
      else Except.ok { s1 with lesson := resp, quiz := [], current_q := 0, score := 0,
                               hints_used := [], page := "tutorial" }
    else Except.ok s
  | .easier resp =>
    if s.page = "tutorial" then
      if 1 < s.difficulty_grade then
        Except.ok { s with difficulty_grade := s.difficulty_grade - 1, lesson := resp,
                           quiz := [], current_q := 0, score := 0, hints_used := [] }
      else Except.ok s
    else Except.ok s
  | .harder resp =>
    if s.page = "tutorial" then
      if s.difficulty_grade < 12 then
        Except.ok { s with difficulty_grade := s.difficulty_grade + 1, lesson := resp,
                           quiz := [], current_q := 0, score := 0, hints_used := [] }
      else Except.ok s
    else Except.ok s
  | .moveToQuiz quizResp answersResp =>
    if s.page = "tutorial" then
      match parse_quiz quizResp answersResp with
      | .error msg => Except.error msg
      | .ok quiz_data =>
        Except.ok { s with quiz := quiz_data, current_q := 0, score := 0,
                           hints_used := [], page := "quiz" }
    else Except.ok s
  | .betterTutorial resp =>
    if s.page = "tutorial" then Except.ok { s with lesson := resp }
    else Except.ok s
  | .submit answer evalResp =>
    if s.page = "quiz" ∧ s.quiz ≠ [] ∧ s.current_q < s.quiz.length then
      if (stripL answer.toList).isEmpty then Except.ok s
      else
        match check_answer_with_llm (s.quiz.getD s.current_q ⟨"", ""⟩).question answer evalResp with
        | .error msg => Except.error msg
        | .ok (is_correct, _feedback) =>
          Except.ok { s with score := if is_correct then s.score + 1 else s.score,
                             current_q := s.current_q + 1 }
    else Except.ok s
  | .hint _resp => Except.ok (hintStep s).1
  | .restart =>
    if s.page = "quiz" ∧ s.quiz ≠ [] ∧ s.quiz.length ≤ s.current_q then
      Except.ok { s with page := "home" }
    else Except.ok s

/-- The session states reachable from the initial state through successfully
completed events. -/
inductive Reachable : Session → Prop
  | init : Reachable initSession
  | next {s t : Session} (e : Event) : Reachable s → step s e = Except.ok t → Reachable t

/-- Following the spec's words for the verdict rule (§4.3): take the first
non-empty line of the reply, trim and lower-case it, and test whether it
starts with the token "correct".  Used to compare the specified rule with
the code's `resp.strip().splitlines()[0].strip().lower()` computation. -/
def specVerdict (resp : String) : Bool :=
  match (splitlinesL resp.toList).find? (fun l => !(stripL l).isEmpty) with
  | some l => "correct".toList.isPrefixOf ((stripL l).map Char.toLower)
  | none => false

/-- A ten-question generated block, as the prompt at src/app.py:186-188
requests. -/
def qTen : String :=
  "1. Q1\n2. Q2\n3. Q3\n4. Q4\n5. Q5\n6. Q6\n7. Q7\n8. Q8\n9. Q9\n10. Q10"

/-- A matching answers block whose second answer is the sentinel
"insufficient". -/
def aTen : String :=
  "1. A1\n2. insufficient\n3. A3\n4. A4\n5. A5\n6. A6\n7. A7\n8. A8\n9. A9\n10. A10"

/-- The quiz parsed from `qTen`/`aTen`. -/
def quizTen : List QA :=
  [⟨"Q1", "A1"⟩, ⟨"Q2", "insufficient"⟩, ⟨"Q3", "A3"⟩, ⟨"Q4", "A4"⟩, ⟨"Q5", "A5"⟩,
   ⟨"Q6", "A6"⟩, ⟨"Q7", "A7"⟩, ⟨"Q8", "A8"⟩, ⟨"Q9", "A9"⟩, ⟨"Q10", "A10"⟩]

/-- A concrete tutorial-page state, reached from `initSession` by one
Generate Tutorial event. -/
def sTut : Session :=
  { page := "tutorial", lesson := "L", quiz := [], current_q := 0, score := 0,
    hints_used := [], difficulty_grade := 6 }

/-- A concrete quiz-page state, reached from `sTut` by one
Tutorial-to-Quiz event with replies `qTen`/`aTen`. -/
def sQuiz : Session :=
  { page := "quiz", lesson := "L", quiz := quizTen, current_q := 0, score := 0,
    hints_used := [], difficulty_grade := 6 }

/-- The tutorial-page state reached from `sTut` after pressing Easier down to
grade `g` (each press regenerates the lesson; the replies are all "E"). -/
def sTutGrade (g : Nat) : Session :=
  { page := "tutorial", lesson := "E", quiz := [], current_q := 0, score := 0,
    hints_used := [], difficulty_grade := g }

example : strip_numbering "3) What is X" = "What is X" := by decide
example : strip_numbering "No numbering here" = "No numbering here" := by decide
example : strip_numbering "1. 2 x" = "2 x" := by decide
example : pySplitlines "a\r\nb\n" = ["a", "b"] := by decide
example : pySplitlines "" = [] := by decide
example : pySplitlines "\n" = [""] := by decide
example : check_answer_with_llm "q" "a" "  \nCORRECTLY so\nmore" =
    Except.ok (true, "  \nCORRECTLY so\nmore") := rfl
example : check_answer_with_llm "q" "a" " \n " =
    Except.error "IndexError: list index out of range" := rfl
example : parse_quiz qTen aTen = Except.ok quizTen := rfl
example : step initSession (Event.generateTutorial 6 "fractions" "L") = Except.ok sTut := rfl
example : step sTut (Event.moveToQuiz qTen aTen) = Except.ok sQuiz := rfl
example : Reachable sQuiz :=
  Reachable.next (Event.moveToQuiz qTen aTen)
    (Reachable.next (Event.generateTutorial 6 "fractions" "L") Reachable.init rfl) rfl
example : parse_quiz "1. Q" "1. A" = Except.error "NameError: name 'concept' is not defined" := rfl
example : specVerdict "  \nCORRECTLY so\nmore" = true := rfl

/-! ### Facts about the character classes and the Python string helpers -/

theorem isLineBreak_isPySpace {c : Char} (h : isLineBreak c = true) : isPySpace c = true := by
  simp only [isLineBreak, Bool.or_eq_true, decide_eq_true_eq] at h
  obtain (((((((((h|h)|h)|h)|h)|h)|h)|h)|h)|h) := h <;> subst h <;> decide

theorem head?_dropWhile {α : Type} (p : α → Bool) (l : List α) {c : α}
    (h : (l.dropWhile p).head? = some c) : p c = false := by
  induction l with
  | nil => simp at h
  | cons a t ih =>
    rw [List.dropWhile_cons] at h
    by_cases hp : p a = true
    · rw [if_pos hp] at h
      exact ih h
    · rw [if_neg hp] at h
      simp only [List.head?_cons, Option.some.injEq] at h
      subst h
      simpa using hp

theorem dropWhile_eq_self_of_head {α : Type} (p : α → Bool) (l : List α)
    (h : ∀ c, l.head? = some c → p c = false) : l.dropWhile p = l := by
  cases l with
  | nil => rfl
  | cons a t =>
    have ha := h a rfl
    rw [List.dropWhile_cons, if_neg (by simp [ha])]

theorem dropWhile_idem {α : Type} (p : α → Bool) (l : List α) :
    (l.dropWhile p).dropWhile p = l.dropWhile p :=
  dropWhile_eq_self_of_head p _ (fun _ hc => head?_dropWhile p l hc)

theorem dropWhile_eq_nil_of_all {α : Type} {p : α → Bool} {l : List α}
    (h : ∀ c ∈ l, p c = true) : l.dropWhile p = [] :=
  List.dropWhile_eq_nil_iff.mpr h

theorem dropTrailingWs_append_sp (x w : List Char) (hw : ∀ c ∈ w, isPySpace c = true) :
    dropTrailingWs (x ++ w) = dropTrailingWs x := by
  unfold dropTrailingWs
  have hnil : w.reverse.dropWhile isPySpace = [] :=
    dropWhile_eq_nil_of_all (fun c hc => hw c (List.mem_reverse.mp hc))
  rw [List.reverse_append, List.dropWhile_append, hnil]
  simp

theorem stripL_append_sp (u w : List Char) (hw : ∀ c ∈ w, isPySpace c = true) :
    stripL (u ++ w) = stripL u := by
  unfold stripL
  rw [List.dropWhile_append]
  by_cases hu : (u.dropWhile isPySpace).isEmpty = true
  · rw [if_pos hu, dropWhile_eq_nil_of_all hw]
    have h2 : u.dropWhile isPySpace = [] := by simpa using hu
    rw [h2]
  · rw [if_neg hu]
    exact dropTrailingWs_append_sp _ w hw

theorem stripL_dropWhile (l : List Char) :
    stripL (l.dropWhile isPySpace) = stripL l := by
  unfold stripL
  rw [dropWhile_idem]

theorem getLast?_suffix_of_ne_nil {α : Type} {s l : List α} (h : s <:+ l) (hs : s ≠ []) :
    s.getLast? = l.getLast? := by
  obtain ⟨t, rfl⟩ := h
  rw [List.getLast?_append]
  cases hl : s.getLast? with
  | none =>
    have hsome := List.getLast?_isSome.mpr hs
    rw [hl] at hsome
    simp at hsome
  | some a => simp

theorem stripL_head {l : List Char} {c : Char} (h : (stripL l).head? = some c) :
    isPySpace c = false := by
  unfold stripL dropTrailingWs at h
  rw [List.head?_reverse] at h
  have hne : (l.dropWhile isPySpace).reverse.dropWhile isPySpace ≠ [] := by
    intro heq
    rw [heq] at h
    simp at h
  rw [getLast?_suffix_of_ne_nil (List.dropWhile_suffix _) hne, List.getLast?_reverse] at h
  exact head?_dropWhile _ _ h

theorem stripL_getLast {l : List Char} {c : Char} (h : (stripL l).getLast? = some c) :
    isPySpace c = false := by
  unfold stripL dropTrailingWs at h
  rw [List.getLast?_reverse] at h
  exact head?_dropWhile _ _ h

theorem dropTrailingWs_eq_self {l : List Char}
    (h : ∀ c, l.getLast? = some c → isPySpace c = false) : dropTrailingWs l = l := by
  unfold dropTrailingWs
  rw [dropWhile_eq_self_of_head _ _ (fun c hc => h c (by rwa [List.head?_reverse] at hc)),
    List.reverse_reverse]

theorem stripL_idem (l : List Char) : stripL (stripL l) = stripL l := by
  show dropTrailingWs ((stripL l).dropWhile isPySpace) = stripL l
  rw [dropWhile_eq_self_of_head _ _ (fun _ hc => stripL_head hc)]
  exact dropTrailingWs_eq_self (fun _ hc => stripL_getLast hc)

theorem stripL_eq_nil_iff {l : List Char} :
    stripL l = [] ↔ ∀ c ∈ l, isPySpace c = true := by
  constructor
  · intro h c hc
    unfold stripL dropTrailingWs at h
    rw [List.reverse_eq_nil_iff] at h
    have h3 : ∀ c ∈ l.dropWhile isPySpace, isPySpace c = true := by
      intro c hc
      exact List.dropWhile_eq_nil_iff.mp h c (List.mem_reverse.mpr hc)
    have hc' : c ∈ l.takeWhile isPySpace ++ l.dropWhile isPySpace := by
      rw [List.takeWhile_append_dropWhile]
      exact hc
    rcases List.mem_append.mp hc' with hm | hm
    · exact List.mem_takeWhile_imp hm
    · exact h3 c hm
  · intro h
    unfold stripL
    rw [dropWhile_eq_nil_of_all h]
    rfl

/-! ### Structure of `splitlinesL` -/

theorem splitlinesGo_one (acc : List Char) (c : Char) :
    splitlinesGo acc [c] =
      if isLineBreak c then [acc.reverse] else splitlinesGo (c :: acc) [] := rfl

theorem splitlinesGo_two (acc : List Char) (c r : Char) (t : List Char) :
    splitlinesGo acc (c :: r :: t) =
      if isLineBreak c then
        (if c = '\r' ∧ r = '\n' then
          acc.reverse :: (if t.isEmpty then [] else splitlinesGo [] t)
         else acc.reverse :: splitlinesGo [] (r :: t))
      else splitlinesGo (c :: acc) (r :: t) := rfl

theorem splitlinesGo_spec (cs : List Char) : ∀ acc : List Char,
    splitlinesGo acc cs =
      (acc.reverse ++ cs.takeWhile (fun c => !isLineBreak c)) ::
        splitlinesRest (cs.dropWhile (fun c => !isLineBreak c)) := by
  induction cs with
  | nil => intro acc; simp [splitlinesGo, splitlinesRest]
  | cons c rest ih =>
    intro acc
    cases rest with
    | nil =>
      rw [splitlinesGo_one]
      by_cases hb : isLineBreak c = true
      · rw [if_pos hb]
        simp [List.takeWhile_cons, List.dropWhile_cons, hb, splitlinesRest, splitlinesL]
      · have hb' : isLineBreak c = false := by simpa using hb
        rw [if_neg hb]
        simp [splitlinesGo, List.takeWhile_cons, List.dropWhile_cons, hb', splitlinesRest,
          splitlinesL]
    | cons r t =>
      rw [splitlinesGo_two]
      by_cases hb : isLineBreak c = true
      · rw [if_pos hb]
        by_cases hcr : c = '\r' ∧ r = '\n'
        · obtain ⟨h1, h2⟩ := hcr
          subst h1
          subst h2
          simp [List.takeWhile_cons, List.dropWhile_cons, hb, splitlinesRest, splitlinesL]
        · rw [if_neg hcr]
          have hrest : splitlinesRest (c :: r :: t) = splitlinesL (r :: t) := by
            simp only [splitlinesRest, List.head?_cons, List.tail_cons, Option.some.injEq]
            rw [if_neg hcr]
          simp [List.takeWhile_cons, List.dropWhile_cons, hb, hrest, splitlinesL]
      · have hb' : isLineBreak c = false := by simpa using hb
        rw [if_neg hb, ih (c :: acc)]
        simp [List.takeWhile_cons, List.dropWhile_cons, hb']

theorem splitlinesL_eq {cs : List Char} (h : cs ≠ []) :
    splitlinesL cs =
      cs.takeWhile (fun c => !isLineBreak c) ::
        splitlinesRest (cs.dropWhile (fun c => !isLineBreak c)) := by
  unfold splitlinesL
  rw [if_neg (by simpa using h)]
  simpa using splitlinesGo_spec cs []

theorem takeWhile_eq_self_of_all {α : Type} {p : α → Bool} {l : List α}
    (h : ∀ c ∈ l, p c = true) : l.takeWhile p = l := by
  induction l with
  | nil => rfl
  | cons a t ih =>
    rw [List.takeWhile_cons, if_pos (h a (List.mem_cons_self a t)),
      ih (fun c hc => h c (List.mem_cons_of_mem a hc))]

theorem stripL_takeWhile_of_nonblank {cs : List Char}
    (hline : stripL (cs.takeWhile (fun c => !isLineBreak c)) ≠ []) :
    stripL ((cs.dropWhile isPySpace).takeWhile (fun c => !isLineBreak c)) =
      stripL (cs.takeWhile (fun c => !isLineBreak c)) := by
  have hnotall : ¬ ∀ c ∈ cs.takeWhile (fun c => !isLineBreak c), isPySpace c = true :=
    fun hall => hline (stripL_eq_nil_iff.mpr hall)
  have hds : (cs.takeWhile (fun c => !isLineBreak c)).dropWhile isPySpace ≠ [] :=
    fun hnil => hnotall (List.dropWhile_eq_nil_iff.mp hnil)
  have hsplit : cs.dropWhile isPySpace =
      (cs.takeWhile (fun c => !isLineBreak c)).dropWhile isPySpace ++
        cs.dropWhile (fun c => !isLineBreak c) := by
    conv_lhs => rw [← List.takeWhile_append_dropWhile (fun c => !isLineBreak c) cs]
    rw [List.dropWhile_append, if_neg (by simpa using hds)]
  have hallP : ∀ c ∈ (cs.takeWhile (fun c => !isLineBreak c)).dropWhile isPySpace,
      (fun c => !isLineBreak c) c = true := by
    intro c hc
    exact @List.mem_takeWhile_imp Char (fun c => !isLineBreak c) cs c
      ((List.dropWhile_suffix isPySpace).subset hc)
  have htail : (cs.dropWhile (fun c => !isLineBreak c)).takeWhile (fun c => !isLineBreak c) = [] := by
    cases hrest : cs.dropWhile (fun c => !isLineBreak c) with
    | nil => rfl
    | cons d t =>
      have hd := @head?_dropWhile Char (fun c => !isLineBreak c) cs d (by rw [hrest]; rfl)
      rw [List.takeWhile_cons, if_neg (by simp [hd])]
  rw [hsplit, List.takeWhile_append,
    if_pos (by rw [takeWhile_eq_self_of_all hallP]), htail, List.append_nil]
  exact stripL_dropWhile _

theorem find?_splitlines_aux : ∀ (n : Nat) (cs : List Char), cs.length ≤ n → stripL cs ≠ [] →
    ∃ l, (splitlinesL cs).find? (fun x => !(stripL x).isEmpty) = some l ∧
      stripL l = stripL ((cs.dropWhile isPySpace).takeWhile (fun c => !isLineBreak c)) := by
  intro n
  induction n with
  | zero =>
    intro cs hlen h
    have hnil : cs = [] := List.length_eq_zero.mp (Nat.le_zero.mp hlen)
    subst hnil
    exact absurd rfl h
  | succ n ihn =>
    intro cs hlen h
    have hne : cs ≠ [] := by
      rintro rfl
      exact h rfl
    rw [splitlinesL_eq hne]
    by_cases hline : stripL (cs.takeWhile (fun c => !isLineBreak c)) = []
    · rw [List.find?_cons_of_neg _ (by simp [hline])]
      have hall_line : ∀ c ∈ cs.takeWhile (fun c => !isLineBreak c), isPySpace c = true :=
        stripL_eq_nil_iff.mp hline
      have hlen_decomp := congrArg List.length
        (List.takeWhile_append_dropWhile (fun c => !isLineBreak c) cs)
      rw [List.length_append] at hlen_decomp
      cases hrest : cs.dropWhile (fun c => !isLineBreak c) with
      | nil =>
        exfalso
        apply h
        apply stripL_eq_nil_iff.mpr
        intro c hc
        have hsplitcs := List.takeWhile_append_dropWhile (fun c => !isLineBreak c) cs
        rw [hrest, List.append_nil] at hsplitcs
        rw [← hsplitcs] at hc
        exact hall_line c hc
      | cons d t =>
        have hd : isLineBreak d = true := by
          have := @head?_dropWhile Char (fun c => !isLineBreak c) cs d (by rw [hrest]; rfl)
          simpa using this
        have hdsp : isPySpace d = true := isLineBreak_isPySpace hd
        have hsplit : cs.dropWhile isPySpace = (d :: t).dropWhile isPySpace := by
          conv_lhs => rw [← List.takeWhile_append_dropWhile (fun c => !isLineBreak c) cs, hrest]
          rw [List.dropWhile_append,
            if_pos (by rw [dropWhile_eq_nil_of_all hall_line]; rfl)]
        have hmem_cs : ∀ c ∈ t, c ∈ cs := by
          intro c hc
          rw [← List.takeWhile_append_dropWhile (fun c => !isLineBreak c) cs, hrest]
          exact List.mem_append.mpr (Or.inr (List.mem_cons_of_mem d hc))
        by_cases hcrlf : d = '\r' ∧ t.head? = some '\n'
        · cases t with
          | nil => simp at hcrlf
          | cons r t2 =>
            have hr : r = '\n' := by simpa using hcrlf.2
            subst hr
            have hrw : splitlinesRest (d :: '\n' :: t2) = splitlinesL t2 := by
              simp only [splitlinesRest, List.head?_cons, List.tail_cons]
              rw [if_pos (by simp [hcrlf.1])]
            rw [hrw]
            have hlen2 : t2.length ≤ n := by
              rw [hrest] at hlen_decomp
              simp only [List.length_cons] at hlen_decomp
              omega
            have hstrip2 : stripL t2 ≠ [] := by
              intro h2
              apply h
              apply stripL_eq_nil_iff.mpr
              intro c hc
              rw [← List.takeWhile_append_dropWhile (fun c => !isLineBreak c) cs, hrest] at hc
              rcases List.mem_append.mp hc with hm | hm
              · exact hall_line c hm
              · rcases List.mem_cons.mp hm with rfl | hm2
                · exact hdsp
                · rcases List.mem_cons.mp hm2 with rfl | hm3
                  · decide
                  · exact stripL_eq_nil_iff.mp h2 c hm3
            obtain ⟨l, hf, hs⟩ := ihn t2 hlen2 hstrip2
            refine ⟨l, hf, ?_⟩
            rw [hs, hsplit, List.dropWhile_cons, if_pos hdsp, List.dropWhile_cons,
              if_pos (by decide)]
        · have hrw : splitlinesRest (d :: t) = splitlinesL t := by
            simp only [splitlinesRest]
            rw [if_neg hcrlf]
          rw [hrw]
          have hlen2 : t.length ≤ n := by
            rw [hrest] at hlen_decomp
            simp only [List.length_cons] at hlen_decomp
            omega
          have hstrip2 : stripL t ≠ [] := by
            intro h2
            apply h
            apply stripL_eq_nil_iff.mpr
            intro c hc
            rw [← List.takeWhile_append_dropWhile (fun c => !isLineBreak c) cs, hrest] at hc
            rcases List.mem_append.mp hc with hm | hm
            · exact hall_line c hm
            · rcases List.mem_cons.mp hm with rfl | hm2
              · exact hdsp
              · exact stripL_eq_nil_iff.mp h2 c hm2
          obtain ⟨l, hf, hs⟩ := ihn t hlen2 hstrip2
          refine ⟨l, hf, ?_⟩
          rw [hs, hsplit, List.dropWhile_cons, if_pos hdsp]
    · refine ⟨cs.takeWhile (fun c => !isLineBreak c),
        List.find?_cons_of_pos _ (by simp [hline]), ?_⟩
      exact (stripL_takeWhile_of_nonblank hline).symm

theorem stripL_takeWhile_stripL (cs : List Char) :
    stripL ((stripL cs).takeWhile (fun c => !isLineBreak c)) =
      stripL ((cs.dropWhile isPySpace).takeWhile (fun c => !isLineBreak c)) := by
  have hm : stripL cs ++ ((cs.dropWhile isPySpace).reverse.takeWhile isPySpace).reverse
      = cs.dropWhile isPySpace := by
    show ((cs.dropWhile isPySpace).reverse.dropWhile isPySpace).reverse ++ _ = _
    rw [← List.reverse_append, List.takeWhile_append_dropWhile, List.reverse_reverse]
  conv_rhs => rw [← hm]
  rw [List.takeWhile_append]
  by_cases hfull : ((stripL cs).takeWhile (fun c => !isLineBreak c)).length = (stripL cs).length
  · rw [if_pos hfull, (List.takeWhile_prefix _).eq_of_length hfull,
      stripL_append_sp _ _ (fun c hc =>
        List.mem_takeWhile_imp (List.mem_reverse.mp ((List.takeWhile_prefix _).subset hc)))]
  · rw [if_neg hfull]

theorem check_answer_eval (q a resp : String) :
    check_answer_with_llm q a resp =
      if stripL resp.toList = [] then Except.error "IndexError: list index out of range"
      else Except.ok (specVerdict resp, resp) := by
  by_cases h : stripL resp.toList = []
  · rw [if_pos h]
    unfold check_answer_with_llm
    rw [h]
    rfl
  · rw [if_neg h]
    have hsv : specVerdict resp =
        "correct".toList.isPrefixOf
          ((stripL ((stripL resp.toList).takeWhile (fun c => !isLineBreak c))).map Char.toLower) := by
      obtain ⟨l, hf, hs⟩ := find?_splitlines_aux resp.toList.length resp.toList le_rfl h
      unfold specVerdict
      rw [hf, stripL_takeWhile_stripL, ← hs]
    unfold check_answer_with_llm
    rw [splitlinesL_eq h, hsv]
    show (if ("correct".toList.isPrefixOf
        ((stripL ((stripL resp.toList).takeWhile (fun c => !isLineBreak c))).map Char.toLower)) = true
      then (Except.ok (true, resp) : Except String (Bool × String))
      else Except.ok (false, resp)) =
      Except.ok ("correct".toList.isPrefixOf
        ((stripL ((stripL resp.toList).takeWhile (fun c => !isLineBreak c))).map Char.toLower), resp)
    split
    · rename_i hv
      rw [hv]
    · rename_i hv
      rw [Bool.not_eq_true] at hv
      rw [hv]

/-! ### The session invariant -/

theorem hintsGet_nil (i : Nat) : hintsGet [] i = 0 := rfl

theorem hintsGet_hintsSet (d : List (Nat × Nat)) (i v j : Nat) :
    hintsGet (hintsSet d i v) j = if j = i then v else hintsGet d j := by
  unfold hintsGet hintsSet
  by_cases hj : j = i
  · subst hj
    simp [List.lookup_cons]
  · have hb : (j == i) = false := by simp [hj]
    simp [List.lookup_cons, hb]
    rw [if_neg hj]

theorem reachable_inv {s : Session} (h : Reachable s) :
    (1 ≤ s.difficulty_grade ∧ s.difficulty_grade ≤ 12) ∧
    (s.page = "tutorial" → s.quiz = []) ∧
    (∀ i, hintsGet s.hints_used i ≤ 3) := by
  induction h with
  | init =>
    refine ⟨⟨by decide, by decide⟩, fun _ => rfl, fun i => ?_⟩
    show hintsGet [] i ≤ 3
    rw [hintsGet_nil]
    decide
  | next e hr hstep ih =>
    obtain ⟨⟨hg1, hg2⟩, hq, hh⟩ := ih
    cases e with
    | generateTutorial grade concept resp =>
      simp only [step] at hstep
      split at hstep
      · split at hstep
        · rw [Except.ok.injEq] at hstep
          subst hstep
          refine ⟨?_, fun hp => hq hp, hh⟩
          dsimp only
          constructor
          · split <;> omega
          · split <;> omega
        · rw [Except.ok.injEq] at hstep
          subst hstep
          refine ⟨?_, fun _ => rfl, fun i => by rw [hintsGet_nil]; decide⟩
          dsimp only
          constructor
          · split <;> omega
          · split <;> omega
      · rw [Except.ok.injEq] at hstep
        subst hstep
        exact ⟨⟨hg1, hg2⟩, hq, hh⟩
    | easier resp =>
      simp only [step] at hstep
      split at hstep
      · split at hstep
        · rw [Except.ok.injEq] at hstep
          subst hstep
          refine ⟨⟨?_, ?_⟩, fun _ => rfl, fun i => by rw [hintsGet_nil]; decide⟩
          · dsimp only
            omega
          · dsimp only
            omega
        · rw [Except.ok.injEq] at hstep
          subst hstep
          exact ⟨⟨hg1, hg2⟩, hq, hh⟩
      · rw [Except.ok.injEq] at hstep
        subst hstep
        exact ⟨⟨hg1, hg2⟩, hq, hh⟩
    | harder resp =>
      simp only [step] at hstep
      split at hstep
      · split at hstep
        · rw [Except.ok.injEq] at hstep
          subst hstep
          refine ⟨⟨?_, ?_⟩, fun _ => rfl, fun i => by rw [hintsGet_nil]; decide⟩
          · dsimp only
            omega
          · dsimp only
            omega
        · rw [Except.ok.injEq] at hstep
          subst hstep
          exact ⟨⟨hg1, hg2⟩, hq, hh⟩
      · rw [Except.ok.injEq] at hstep
        subst hstep
        exact ⟨⟨hg1, hg2⟩, hq, hh⟩
    | moveToQuiz qr ar =>
      simp only [step] at hstep
      split at hstep
      · split at hstep
        · exact Except.noConfusion hstep
        · rw [Except.ok.injEq] at hstep
          subst hstep
          exact ⟨⟨hg1, hg2⟩, fun hp => absurd (show ("quiz" : String) = "tutorial" from hp) (by decide),
            fun i => by rw [hintsGet_nil]; decide⟩
      · rw [Except.ok.injEq] at hstep
        subst hstep
        exact ⟨⟨hg1, hg2⟩, hq, hh⟩
    | betterTutorial resp =>
      simp only [step] at hstep
      split at hstep
      · rename_i hpage
        rw [Except.ok.injEq] at hstep
        subst hstep
        exact ⟨⟨hg1, hg2⟩, fun _ => hq hpage, hh⟩
      · rw [Except.ok.injEq] at hstep
        subst hstep
        exact ⟨⟨hg1, hg2⟩, hq, hh⟩
    | submit answer evalResp =>
      simp only [step] at hstep
      split at hstep
      · split at hstep
        · rw [Except.ok.injEq] at hstep
          subst hstep
          exact ⟨⟨hg1, hg2⟩, hq, hh⟩
        · split at hstep
          · exact Except.noConfusion hstep
          · rw [Except.ok.injEq] at hstep
            subst hstep
            exact ⟨⟨hg1, hg2⟩, fun hp => hq hp, hh⟩
      · rw [Except.ok.injEq] at hstep
        subst hstep
        exact ⟨⟨hg1, hg2⟩, hq, hh⟩
    | hint resp =>
      simp only [step] at hstep
      rw [Except.ok.injEq] at hstep
      subst hstep
      simp only [hintStep]
      split
      · split
        · exact ⟨⟨hg1, hg2⟩, hq, hh⟩
        · rename_i hcount
          refine ⟨⟨hg1, hg2⟩, fun hp => hq hp, fun i => ?_⟩
          dsimp only
          rw [hintsGet_hintsSet]
          split
          · omega
          · exact hh i
      · exact ⟨⟨hg1, hg2⟩, hq, hh⟩
    | restart =>
      simp only [step] at hstep
      split at hstep
      · rw [Except.ok.injEq] at hstep
        subst hstep
        exact ⟨⟨hg1, hg2⟩, fun hp => absurd (show ("home" : String) = "tutorial" from hp) (by decide), hh⟩
      · rw [Except.ok.injEq] at hstep
        subst hstep
        exact ⟨⟨hg1, hg2⟩, hq, hh⟩

/-! ### Concrete reachable states -/

theorem sTut_reachable : Reachable sTut :=
  Reachable.next (Event.generateTutorial 6 "fractions" "L") Reachable.init rfl

theorem sQuiz_reachable : Reachable sQuiz :=
  Reachable.next (Event.moveToQuiz qTen aTen) sTut_reachable rfl

theorem sTutGrade1_reachable : Reachable (sTutGrade 1) :=
  Reachable.next (Event.easier "E")
    (Reachable.next (Event.easier "E")
      (Reachable.next (Event.easier "E")
        (Reachable.next (Event.easier "E")
          (Reachable.next (Event.easier "E") sTut_reachable rfl) rfl) rfl) rfl) rfl

theorem toList_append (s t : String) : (s ++ t).toList = s.toList ++ t.toList :=
  String.data_append s t

theorem strip_numberingL_stripped (cs : List Char) : ∃ x, strip_numberingL cs = stripL x := by
  unfold strip_numberingL
  split
  · exact ⟨cs, rfl⟩
  · split
    · exact ⟨_, rfl⟩
    · exact ⟨cs, rfl⟩

theorem strip_numberingL_cons_nondigit {c : Char} (tl : List Char)
    (hsp : isPySpace c = false) (hd : isPyDigit c = false) :
    strip_numberingL (c :: tl) = stripL (c :: tl) := by
  unfold strip_numberingL
  rw [List.dropWhile_cons, if_neg (by simp [hsp])]
  simp only []
  rw [if_neg (by simp [hd])]

/-! ### The claims -/

/-- C1 (counterexample): the Tutorial-to-Quiz parse step performs no
insufficient-answer filtering — for the concrete generated blocks `qTen` and
`aTen` the stored quiz retains a pair whose stripped, lower-cased answer
equals "insufficient", refuting the claim that every such pair is filtered
out before the quiz is stored. -/
theorem claim_C1_counterexample :
    ∃ l, parse_quiz qTen aTen = Except.ok l ∧
      ∃ p ∈ l, (stripL p.answer.toList).map Char.toLower = "insufficient".toList :=
  ⟨quizTen, rfl, ⟨"Q2", "insufficient"⟩, by decide, by decide⟩

/-- C1 (amended): the parse step applies no filter at all — whenever it
completes, the pair stored at position i is exactly the i-th stripped
question line paired with the i-th stripped answer line, whatever the answer
text (in particular an "insufficient" answer is retained). -/
theorem claim_C1_amended (qtext atext : String) (l : List QA)
    (h : parse_quiz qtext atext = Except.ok l) :
    ∀ i, (hi : i < l.length) → l.get ⟨i, hi⟩ =
      ⟨(questionsOf qtext).getD i "", (answersOf atext).getD i ""⟩ := by
  intro i hi
  simp only [parse_quiz] at h
  split at h
  · exact Except.noConfusion h
  · rw [Except.ok.injEq] at h
    subst h
    have hi' := hi
    rw [List.length_take, List.length_map, List.length_zip] at hi'
    have hq : i < (questionsOf qtext).length := by omega
    have ha : i < (answersOf atext).length := by omega
    rw [List.getD_eq_getElem _ _ hq, List.getD_eq_getElem _ _ ha]
    rw [List.get_eq_getElem, List.getElem_take, List.getElem_map, List.getElem_zip]

/-- C1 amended claim applied at the concrete blocks `qTen`/`aTen`: the
second stored pair is the "insufficient" one. -/
theorem claim_C1_amended_witness :
    quizTen.get ⟨1, by decide⟩ =
      ⟨(questionsOf qTen).getD 1 "", (answersOf aTen).getD 1 ""⟩ :=
  claim_C1_amended qTen aTen quizTen rfl 1 (by decide)

/-- C2 (counterexample): with a single usable question line and a single
usable answer line the transition does not produce a shorter quiz — it
produces no quiz at all, failing in the padding loop on the unbound name
`concept`. -/
theorem claim_C2_counterexample :
    parse_quiz "1. Q" "1. A" = Except.error "NameError: name 'concept' is not defined" ∧
    ¬ ∃ l : List QA, parse_quiz "1. Q" "1. A" = Except.ok l := by
  refine ⟨rfl, ?_⟩
  rintro ⟨l, hl⟩
  rw [show parse_quiz "1. Q" "1. A" =
      Except.error "NameError: name 'concept' is not defined" from rfl] at hl
  exact Except.noConfusion hl

/-- C2 (amended): when the parse step completes, the quiz has exactly 10
pairs (which is also at most min(question lines, answer lines), since
completion forces at least 10 of each); with fewer than 10 positional pairs
the padding loop references the undefined name `concept` and the step fails
with a NameError instead of storing a shorter quiz. -/
theorem claim_C2_amended (qtext atext : String) :
    (∀ l, parse_quiz qtext atext = Except.ok l →
      l.length = 10 ∧
      l.length ≤ min (questionsOf qtext).length (answersOf atext).length) ∧
    (min (questionsOf qtext).length (answersOf atext).length < 10 →
      parse_quiz qtext atext = Except.error "NameError: name 'concept' is not defined") := by
  constructor
  · intro l hl
    simp only [parse_quiz] at hl
    split at hl
    · exact Except.noConfusion hl
    · rename_i hlen
      rw [Except.ok.injEq] at hl
      subst hl
      rw [List.length_map, List.length_zip] at hlen
      rw [List.length_take, List.length_map, List.length_zip]
      omega
  · intro hmin
    simp only [parse_quiz]
    rw [if_pos (by rw [List.length_map, List.length_zip]; omega)]

/-- C2 amended claim at concrete inputs: ten pairs parse from `qTen`/`aTen`,
and the one-line blocks fail with the NameError. -/
theorem claim_C2_amended_witness :
    quizTen.length = 10 ∧
    parse_quiz "1) Q" "1) A" = Except.error "NameError: name 'concept' is not defined" :=
  ⟨((claim_C2_amended qTen aTen).1 quizTen rfl).1,
   (claim_C2_amended "1) Q" "1) A").2 (by decide)⟩

/-- C3 (counterexample): in the concrete quiz state `sQuiz` a non-blank
Submit advances `current_q` from 0 to 1 within the Submit handler itself —
there is no pause with pending feedback before advancing. -/
theorem claim_C3_counterexample :
    (step sQuiz (Event.submit "4" "CORRECT good job")).map Session.current_q = Except.ok 1 ∧
    sQuiz.current_q = 0 :=
  ⟨rfl, rfl⟩

/-- C3 (amended): a non-blank Submit on a displayed question evaluates the
answer and, in the same action, increments the score when the verdict reply
starts with "correct" and advances `current_q` by one; no pending-feedback
field exists and no separate Next Question action is involved. -/
theorem claim_C3_amended (s : Session) (ans resp : String)
    (hp : s.page = "quiz") (hq : s.quiz ≠ []) (hlt : s.current_q < s.quiz.length)
    (hans : stripL ans.toList ≠ []) (hresp : stripL resp.toList ≠ []) :
    step s (Event.submit ans resp) =
      Except.ok { s with
        score := if specVerdict resp then s.score + 1 else s.score,
        current_q := s.current_q + 1 } := by
  simp only [step]
  rw [if_pos ⟨hp, hq, hlt⟩, if_neg (by simpa using hans), check_answer_eval, if_neg hresp]

/-- C3 amended claim at the concrete state `sQuiz` with answer "4" and
verdict reply "CORRECT good job". -/
theorem claim_C3_amended_witness :
    step sQuiz (Event.submit "4" "CORRECT good job") =
      Except.ok { sQuiz with score := 1, current_q := 1 } := by
  rw [claim_C3_amended sQuiz "4" "CORRECT good job" rfl (by decide) (by decide)
    (by decide) (by decide)]
  rfl

/-- C4 (counterexample): the grading prompt contains no lesson text — a
concrete lesson string is not a substring of the prompt built for a concrete
question and student answer. -/
theorem claim_C4_counterexample :
    ¬ ("LESSON TEXT".toList <:+: (check_prompt "What is 2+2?" "4").toList) := by
  decide

/-- C4 (amended): the grading prompt embeds the question and the student
answer (each occurs as a substring), but the evaluator takes no lesson
argument and no lesson text is part of the prompt. -/
theorem claim_C4_amended (question student_answer : String) :
    question.toList <:+: (check_prompt question student_answer).toList ∧
    student_answer.toList <:+: (check_prompt question student_answer).toList := by
  constructor
  · exact ⟨"Question: ".toList,
      ("\n" ++ "Student Answer: " ++ student_answer ++ "\n\n" ++
       "Evaluate whether the student's answer is correct. " ++
       "Reply starting with a single word 'CORRECT' or 'INCORRECT' (caps or any case ok). " ++
       "Optionally add one short sentence of feedback after that word. " ++
       "Do NOT reveal the correct answer if the student's answer is incorrect.").toList,
      by simp only [check_prompt, toList_append, List.append_assoc]⟩
  · exact ⟨("Question: " ++ question ++ "\n" ++ "Student Answer: ").toList,
      ("\n\n" ++
       "Evaluate whether the student's answer is correct. " ++
       "Reply starting with a single word 'CORRECT' or 'INCORRECT' (caps or any case ok). " ++
       "Optionally add one short sentence of feedback after that word. " ++
       "Do NOT reveal the correct answer if the student's answer is incorrect.").toList,
      by simp only [check_prompt, toList_append, List.append_assoc]⟩

/-- C5: the claim that no component raises across a component boundary is
right as a design statement and the code breaks it in two places — the
answer evaluator indexes the first line of an empty stripped reply
(IndexError), and the quiz padding loop evaluates an f-string over the
unbound name `concept` (NameError). -/
theorem claim_C5_code_bug :
    check_answer_with_llm "What is 2+2?" "4" "" =
      Except.error "IndexError: list index out of range" ∧
    parse_quiz "1) Only question" "1) Only answer" =
      Except.error "NameError: name 'concept' is not defined" :=
  ⟨rfl, rfl⟩

/-- C6: in every reachable session, each lesson-regeneration operation fired
on the Tutorial page (Easier, Harder, or the "better tutorial" request)
leaves the session with an empty quiz. -/
theorem claim_C6 {s t : Session} (h : Reachable s) (hpage : s.page = "tutorial") (e : Event)
    (he : (∃ r, e = Event.easier r) ∨ (∃ r, e = Event.harder r) ∨
      (∃ r, e = Event.betterTutorial r))
    (hstep : step s e = Except.ok t) : t.quiz = [] := by
  have hquiz : s.quiz = [] := (reachable_inv h).2.1 hpage
  rcases he with ⟨r, rfl⟩ | ⟨r, rfl⟩ | ⟨r, rfl⟩
  · simp only [step] at hstep
    rw [if_pos hpage] at hstep
    split at hstep
    · rw [Except.ok.injEq] at hstep
      subst hstep
      rfl
    · rw [Except.ok.injEq] at hstep
      subst hstep
      exact hquiz
  · simp only [step] at hstep
    rw [if_pos hpage] at hstep
    split at hstep
    · rw [Except.ok.injEq] at hstep
      subst hstep
      rfl
    · rw [Except.ok.injEq] at hstep
      subst hstep
      exact hquiz
  · simp only [step] at hstep
    rw [if_pos hpage] at hstep
    rw [Except.ok.injEq] at hstep
    subst hstep
    exact hquiz

/-- C6 applied at the concrete reachable tutorial state `sTut` and a
"better tutorial" request. -/
theorem claim_C6_witness :
    ({ sTut with lesson := "L2" } : Session).quiz = [] :=
  claim_C6 sTut_reachable rfl (Event.betterTutorial "L2")
    (Or.inr (Or.inr ⟨"L2", rfl⟩)) rfl

/-- C7 (counterexample): the numbering strip is not idempotent — on
"1. 2 x" one application gives "2 x" and a second application strips again
to "x". -/
theorem claim_C7_counterexample :
    strip_numbering (strip_numbering "1. 2 x") ≠ strip_numbering "1. 2 x" := by
  decide

/-- C7 (amended): both quoted examples hold, and stripping twice equals
stripping once for every line whose stripped result does not itself begin
with a decimal digit (any Unicode digit of the regex class matched by a
backslash-d); idempotence fails in general because a second application can
strip a fresh leading number. -/
theorem claim_C7_amended :
    strip_numbering "3) What is X" = "What is X" ∧
    strip_numbering "No numbering here" = "No numbering here" ∧
    ∀ s : String, ((strip_numberingL s.toList).head?.all fun c => !isPyDigit c) = true →
      strip_numbering (strip_numbering s) = strip_numbering s := by
  refine ⟨by decide, by decide, ?_⟩
  intro s hnd
  show String.mk (strip_numberingL (strip_numberingL s.toList)) =
    String.mk (strip_numberingL s.toList)
  congr 1
  cases hxx : strip_numberingL s.toList with
  | nil => rfl
  | cons c tl =>
    obtain ⟨x, hx⟩ := strip_numberingL_stripped s.toList
    have hc : (stripL x).head? = some c := by
      rw [← hx, hxx]
      rfl
    have hsp : isPySpace c = false := stripL_head hc
    have hd : isPyDigit c = false := by
      rw [hxx] at hnd
      simpa using hnd
    rw [strip_numberingL_cons_nondigit tl hsp hd]
    have hcx : (c : Char) :: tl = stripL x := by rw [← hxx, hx]
    rw [hcx, stripL_idem]

/-- C7 amended claim applied at "12. What is 2+2?", whose stripped form
starts with a letter. -/
theorem claim_C7_amended_witness :
    strip_numbering (strip_numbering "12. What is 2+2?") =
      strip_numbering "12. What is 2+2?" :=
  claim_C7_amended.2.2 "12. What is 2+2?" (by decide)

/-- C8 (counterexample): on the empty reply the evaluator does not return a
verdict/feedback pair at all — it fails with an IndexError — so the claim
quantified over every reply string fails. -/
theorem claim_C8_counterexample :
    ¬ ∃ b fb, check_answer_with_llm "Q" "S" "" = Except.ok (b, fb) := by
  rintro ⟨b, fb, hbf⟩
  rw [show check_answer_with_llm "Q" "S" "" =
      Except.error "IndexError: list index out of range" from rfl] at hbf
  exact Except.noConfusion hbf

/-- C8 (amended): for every reply whose stripped text is non-empty the
evaluator returns the verdict of the spec's rule — true iff the first
non-empty line of the reply, trimmed and lower-cased, starts with "correct"
(so "correctly" also counts) — together with the full reply as feedback;
a whitespace-only reply instead fails with an IndexError. -/
theorem claim_C8_amended (question student_answer resp : String) :
    check_answer_with_llm question student_answer resp =
      if stripL resp.toList = []
      then Except.error "IndexError: list index out of range"
      else Except.ok (specVerdict resp, resp) :=
  check_answer_eval question student_answer resp

/-- C9: in every reachable session every hint counter is at most 3; a hint
request with the cap reached changes nothing and makes no generation call,
and a served hint request increments the current question's counter by
exactly one with exactly one generation call. -/
theorem claim_C9 {s : Session} (h : Reachable s) :
    (∀ i, hintsGet s.hints_used i ≤ 3) ∧
    (3 ≤ hintsGet s.hints_used s.current_q → hintStep s = (s, 0)) ∧
    (s.page = "quiz" → s.quiz ≠ [] → s.current_q < s.quiz.length →
      hintsGet s.hints_used s.current_q < 3 →
      hintsGet (hintStep s).1.hints_used s.current_q =
        hintsGet s.hints_used s.current_q + 1 ∧
      (hintStep s).2 = 1) := by
  refine ⟨(reachable_inv h).2.2, ?_, ?_⟩
  · intro h3
    simp only [hintStep]
    split
    · rfl
    · rfl
  · intro hp hq hlt hcount
    simp only [hintStep]
    rw [if_pos ⟨hp, hq, hlt⟩, if_neg (by omega)]
    refine ⟨?_, rfl⟩
    dsimp only
    rw [hintsGet_hintsSet, if_pos rfl]

/-- C9 applied at the concrete reachable quiz state `sQuiz`: the first hint
request is served, incrementing the counter with one generation call. -/
theorem claim_C9_witness :
    hintsGet (hintStep sQuiz).1.hints_used sQuiz.current_q =
      hintsGet sQuiz.hints_used sQuiz.current_q + 1 ∧
    (hintStep sQuiz).2 = 1 :=
  (claim_C9 sQuiz_reachable).2.2 rfl (by decide) (by decide) (by decide)

/-- C10: in every reachable session the difficulty grade lies in [1,12],
a further Easier at grade 1 leaves the whole state unchanged, and a further
Harder at grade 12 leaves the whole state unchanged. -/
theorem claim_C10 {s : Session} (h : Reachable s) :
    1 ≤ s.difficulty_grade ∧ s.difficulty_grade ≤ 12 ∧
    (∀ r, s.difficulty_grade = 1 → step s (Event.easier r) = Except.ok s) ∧
    (∀ r, s.difficulty_grade = 12 → step s (Event.harder r) = Except.ok s) := by
  obtain ⟨⟨hg1, hg2⟩, -, -⟩ := reachable_inv h
  refine ⟨hg1, hg2, ?_, ?_⟩
  · intro r h1
    simp only [step]
    split
    · rw [if_neg (by omega)]
    · rfl
  · intro r h12
    simp only [step]
    split
    · rw [if_neg (by omega)]
    · rfl

/-- C10 applied at the concrete reachable grade-1 tutorial state: the grade
is within bounds and a further Easier is a no-op on the whole state. -/
theorem claim_C10_witness :
    1 ≤ (sTutGrade 1).difficulty_grade ∧ (sTutGrade 1).difficulty_grade ≤ 12 ∧
    step (sTutGrade 1) (Event.easier "E") = Except.ok (sTutGrade 1) :=
  ⟨(claim_C10 sTutGrade1_reachable).1, (claim_C10 sTutGrade1_reachable).2.1,
   (claim_C10 sTutGrade1_reachable).2.2.1 "E" rfl⟩
